import Mathlib

/-!
Shallow embedding of the conversational-turn core of the santa-backend-starter
repository.  Three `/chat` handler variants exist in the sources:

* `santaChat`   — `src/index.ts` (first document): Santa persona, greedy gift
  regex `\x7b[\s\S]*"gift"[\s\S]*\x7d`, graceful fallback on model failure.
* `chat500`     — `src/src/index.ts`: same extraction but the `replace(...).trim()`
  runs unconditionally, and a model failure is answered with HTTP 500 and a
  fixed apology.
* `pepperChat`  — `src/unnamed/part_000`: Pepper persona, gift extraction plus a
  name-fragment regex writing into the `children` map.

Strings are modelled as `List Char`; `JSON.parse` is modelled by a fuelled
recursive-descent parser `parseVal`/`jsonParse`; the regexes are modelled by
executable scanning functions mirroring the JS engine's leftmost-match
semantics for these particular patterns.
-/

/-- JSON whitespace accepted by `JSON.parse` between tokens. -/
def isJsonWs (c : Char) : Bool :=
  c = ' ' || c = '\t' || c = '\n' || c = '\r'

/-- JavaScript `\s` / `String.prototype.trim` whitespace (ASCII part). -/
def isJsWs (c : Char) : Bool :=
  c = ' ' || c = '\t' || c = '\n' || c = '\r' || c = '\x0b' || c = '\x0c'

/-- Drop leading JSON whitespace. -/
def skipWs (s : List Char) : List Char := s.dropWhile isJsonWs

/-- Model of JavaScript `String.prototype.trim`. -/
def trimJs (s : List Char) : List Char :=
  ((s.dropWhile isJsWs).reverse.dropWhile isJsWs).reverse

/-- First index (if any) at which `pat` occurs as a substring of `s`. -/
def findSub (pat : List Char) : List Char → Option Nat
  | [] => if pat.isEmpty then some 0 else none
  | c :: cs =>
    if pat.isPrefixOf (c :: cs) then some 0
    else (findSub pat cs).map (· + 1)

/-- Index of the last closing brace in `s`, if any. -/
def lastClose : List Char → Option Nat
  | [] => none
  | c :: cs =>
    match lastClose cs with
    | some j => some (j + 1)
    | none => if c = '\x7d' then some 0 else none

/-- Model of JavaScript `String.prototype.replace` with a plain-string first
argument: remove the first occurrence of `sub` from `s`. -/
def removeFirstSub (s sub : List Char) : List Char :=
  match findSub sub s with
  | none => s
  | some j => s.take j ++ s.drop (j + sub.length)

/-- JSON values as produced by `JSON.parse`.  A number is kept as a mantissa
and a decimal exponent (value `m * 10 ^ e`); only its zeroness is ever
consulted by the handlers (JS truthiness). -/
inductive Json where
  | jnull : Json
  | jbool : Bool → Json
  | jnum : Int → Int → Json
  | jstr : List Char → Json
  | jarr : List Json → Json
  | jobj : List (List Char × Json) → Json

/-- Single-character JSON string escapes. -/
def escChar (c : Char) : Option Char :=
  if c = '\x22' then some '\x22'
  else if c = '\\' then some '\\'
  else if c = '/' then some '/'
  else if c = 'b' then some '\x08'
  else if c = 'f' then some '\x0c'
  else if c = 'n' then some '\n'
  else if c = 'r' then some '\r'
  else if c = 't' then some '\t'
  else none

/-- Value of a hexadecimal digit. -/
def hexVal (c : Char) : Option Nat :=
  if '0' ≤ c ∧ c ≤ '9' then some (c.toNat - 48)
  else if 'a' ≤ c ∧ c ≤ 'f' then some (c.toNat - 87)
  else if 'A' ≤ c ∧ c ≤ 'F' then some (c.toNat - 55)
  else none

/-- Parse the body of a JSON string literal (the opening quote already
consumed): returns the decoded characters and the text after the closing
quote.  Raw control characters are rejected, as `JSON.parse` does. -/
def parseStrBody : List Char → Option (List Char × List Char)
  | [] => none
  | c :: rest =>
    if c = '\x22' then some ([], rest)
    else if c = '\\' then
      match rest with
      | [] => none
      | e :: rest' =>
        if e = 'u' then
          match rest' with
          | a :: b :: c2 :: d :: rest2 =>
            match hexVal a, hexVal b, hexVal c2, hexVal d with
            | some ha, some hb, some hc, some hd =>
              (parseStrBody rest2).map fun p =>
                (Char.ofNat (((ha * 16 + hb) * 16 + hc) * 16 + hd) :: p.1, p.2)
            | _, _, _, _ => none
          | _ => none
        else
          match escChar e with
          | some ch => (parseStrBody rest').map fun p => (ch :: p.1, p.2)
          | none => none
    else if c.toNat < 32 then none
    else (parseStrBody rest).map fun p => (c :: p.1, p.2)

/-- Numeric value of a digit string. -/
def natOfDigits (ds : List Char) : Nat :=
  ds.foldl (fun a c => a * 10 + (c.toNat - 48)) 0

/-- Parse the integer-part digits of a JSON number, enforcing the
no-leading-zero rule. -/
def parseIntDigits (s : List Char) : Option (List Char × List Char) :=
  let p := s.span Char.isDigit
  if p.1.isEmpty then none
  else if 1 < p.1.length ∧ p.1.headD '0' = '0' then none
  else some p

/-- Parse a JSON number, returning mantissa, decimal exponent and the rest. -/
def parseNum (s : List Char) : Option (Int × Int × List Char) := do
  let (neg, s1) := if s.headD ' ' = '-' then (true, s.tail) else (false, s)
  let (ids, s2) ← parseIntDigits s1
  let (fds, s3) ←
    match s2 with
    | '.' :: t =>
      let p := t.span Char.isDigit
      if p.1.isEmpty then none else some p
    | _ => some ([], s2)
  let (ex, s4) ←
    match s3 with
    | 'e' :: t | 'E' :: t =>
      let (esign, t1) :=
        match t with
        | '+' :: u => ((1 : Int), u)
        | '-' :: u => ((-1 : Int), u)
        | _ => ((1 : Int), t)
      let p := t1.span Char.isDigit
      if p.1.isEmpty then none
      else some ((esign * (natOfDigits p.1 : Int), p.2) : Int × List Char)
    | _ => some ((0 : Int), s3)
  let mag : Int := (natOfDigits (ids ++ fds) : Int)
  some (if neg then -mag else mag, ex - (fds.length : Int), s4)

/-- Continuation of object parsing after `"key" :` has been consumed: parse
the member value with `pv`, then either close the object or (after a comma
that is not a trailing comma) parse the remaining members by re-opening a
brace. -/
def objStep (pv : List Char → Option (Json × List Char)) (key : List Char)
    (s : List Char) : Option (Json × List Char) :=
  match pv s with
  | none => none
  | some (v, r3) =>
    match skipWs r3 with
    | '\x7d' :: t => some (.jobj [(key, v)], t)
    | ',' :: r4 =>
      match skipWs r4 with
      | '\x7d' :: _ => none
      | _ =>
        match pv ('\x7b' :: r4) with
        | some (.jobj kvs, t) => some (.jobj ((key, v) :: kvs), t)
        | _ => none
    | _ => none

/-- Continuation of array parsing after the opening bracket (non-empty case):
parse one element with `pv`, then close or continue after a comma. -/
def arrStep (pv : List Char → Option (Json × List Char)) (s : List Char) :
    Option (Json × List Char) :=
  match pv s with
  | none => none
  | some (v, r1) =>
    match skipWs r1 with
    | ']' :: t => some (.jarr [v], t)
    | ',' :: r2 =>
      match skipWs r2 with
      | ']' :: _ => none
      | _ =>
        match pv ('[' :: r2) with
        | some (.jarr vs, t) => some (.jarr (v :: vs), t)
        | _ => none
    | _ => none

/-- Fuelled recursive-descent model of `JSON.parse` for one value: returns the
value and the remaining text.  Object and array member lists are parsed by
recursing on a re-opened bracket, with a guard rejecting trailing commas. -/
def parseVal : Nat → List Char → Option (Json × List Char)
  | 0, _ => none
  | f + 1, s =>
    match skipWs s with
    | [] => none
    | c :: r =>
      if c = '\x7b' then
        match skipWs r with
        | '\x7d' :: t => some (.jobj [], t)
        | '\x22' :: rk =>
          match parseStrBody rk with
          | none => none
          | some (key, r1) =>
            match skipWs r1 with
            | ':' :: r2 => objStep (parseVal f) key r2
            | _ => none
        | _ => none
      else if c = '[' then
        match skipWs r with
        | ']' :: t => some (.jarr [], t)
        | _ => arrStep (parseVal f) r
      else if c = '\x22' then
        (parseStrBody r).map fun p => (.jstr p.1, p.2)
      else if c = 't' then
        if "rue".toList.isPrefixOf r then some (.jbool true, r.drop 3) else none
      else if c = 'f' then
        if "alse".toList.isPrefixOf r then some (.jbool false, r.drop 4) else none
      else if c = 'n' then
        if "ull".toList.isPrefixOf r then some (.jnull, r.drop 3) else none
      else
        (parseNum (c :: r)).map fun p => (.jnum p.1 p.2.1, p.2.2)

/-- Model of `JSON.parse`: one value, with nothing but whitespace after it. -/
def jsonParse (s : List Char) : Option Json :=
  match parseVal (s.length + 1) s with
  | some (v, rest) => if (skipWs rest).isEmpty then some v else none
  | none => none

/-- Last-binding-wins association lookup, matching how `JSON.parse` builds a
JS object from duplicate keys. -/
def lookupLast (kvs : List (List Char × Json)) (key : List Char) : Option Json :=
  kvs.foldl (fun acc kv => if kv.1 = key then some kv.2 else acc) none

/-- JS property access `v.key`: only objects expose parsed keys; anything else
yields `undefined` (`none`). -/
def jsGet (v : Json) (key : List Char) : Option Json :=
  match v with
  | .jobj kvs => lookupLast kvs key
  | _ => none

/-- Whether a `JSON.parse` result is a string value. -/
def jsonIsStr : Json → Bool
  | .jstr _ => true
  | _ => false

/-- JS truthiness of a `JSON.parse` result. -/
def truthy : Json → Bool
  | .jnull => false
  | .jbool b => b
  | .jnum m _ => m != 0
  | .jstr s => !s.isEmpty
  | .jarr _ => true
  | .jobj _ => true

/-- The six-character literal `"gift"` (with its quotes) searched for by the
gift regex. -/
def giftLit : List Char := "\x22gift\x22".toList

/-- Attempted match of the regex `\x7b[\s\S]*"gift"[\s\S]*\x7d` anchored at the
head of `s`: the opening brace, then (greedily) some occurrence of `"gift"`,
then the last `\x7d` of `s` at least past that occurrence.  Returns the match
length. -/
def giftMatchAt (s : List Char) : Option Nat :=
  match s with
  | c :: rest =>
    if c = '\x7b' then
      match findSub giftLit rest, lastClose (c :: rest) with
      | some p, some q => if p + 7 ≤ q then some (q + 1) else none
      | _, _ => none
    else none
  | [] => none

/-- Leftmost match of the gift regex in `s`: start index and length, scanning
start positions left to right as the JS engine does. -/
def giftSearch : List Char → Option (Nat × Nat)
  | [] => none
  | c :: cs =>
    match giftMatchAt (c :: cs) with
    | some len => some (0, len)
    | none => (giftSearch cs).map fun p => (p.1 + 1, p.2)

/-- Literal `\x7b"child"` opening the name regex. -/
def childLit : List Char := "\x7b\x22child\x22".toList

/-- Literal `\x7b"name"` inside the name regex. -/
def nameLit : List Char := "\x7b\x22name\x22".toList

/-- Match a literal at the head of `s`, returning the rest. -/
def litP (lit s : List Char) : Option (List Char) :=
  if lit.isPrefixOf s then some (s.drop lit.length) else none

/-- Drop `\s*` (JS whitespace). -/
def wsStar (s : List Char) : List Char := s.dropWhile isJsWs

/-- Attempted match of the name regex
`\x7b"child"\s*:\s*\x7b"name"\s*:\s*"([^"]+)"\x7d\x7d` anchored at the head of `s`:
returns the captured name and the rest after the match. -/
def nameMatchAt (s : List Char) : Option (List Char × List Char) :=
  match litP childLit s with
  | none => none
  | some s1 =>
    match litP [':'] (wsStar s1) with
    | none => none
    | some s2 =>
      match litP nameLit (wsStar s2) with
      | none => none
      | some s3 =>
        match litP [':'] (wsStar s3) with
        | none => none
        | some s4 =>
          match litP ['\x22'] (wsStar s4) with
          | none => none
          | some s5 =>
            if (s5.takeWhile (· ≠ '\x22')).isEmpty then none
            else
              match litP "\x22\x7d\x7d".toList
                  (s5.drop (s5.takeWhile (· ≠ '\x22')).length) with
              | none => none
              | some s6 => some (s5.takeWhile (· ≠ '\x22'), s6)

/-- Leftmost match of the name regex: text before the match, the captured
name, and the text after the match. -/
def nameSearch : List Char → Option (List Char × List Char × List Char)
  | [] => none
  | c :: cs =>
    match nameMatchAt (c :: cs) with
    | some (nm, rest) => some ([], nm, rest)
    | none => (nameSearch cs).map fun p => (c :: p.1, p.2.1, p.2.2)

/-- Case-insensitive comparison of a (lowercase) pattern against the front of
`s`, modelling the regex `i` flag. -/
def ciPre : List Char → List Char → Bool
  | [], _ => true
  | _ :: _, [] => false
  | p :: ps, c :: cs => (p = c.toLower) && ciPre ps cs

/-- Capture group 1 of the wish regex: the greedy `.+` from offset `n` to the
end of the line, required non-empty. -/
def wishCap (s : List Char) (n : Nat) : Option (List Char) :=
  if ((s.drop n).takeWhile (· ≠ '\n')).isEmpty then none
  else some ((s.drop n).takeWhile (· ≠ '\n'))

/-- Attempted match of the wish regex `i (?:want|would like|wish for) (.+)`
(flag `i`) anchored at the head of `s`: returns capture group 1. -/
def wishAt (s : List Char) : Option (List Char) :=
  if ciPre "i want ".toList s then wishCap s 7
  else if ciPre "i would like ".toList s then wishCap s 13
  else if ciPre "i wish for ".toList s then wishCap s 11
  else none

/-- Leftmost match of the wish regex over the utterance. -/
def wishSearch : List Char → Option (List Char)
  | [] => none
  | c :: cs =>
    match wishAt (c :: cs) with
    | some w => some w
    | none => wishSearch cs

/-- One stored gift record: `\x7b item, details?, at \x7d` pushed onto
`gifts[childId]`.  `item` is whatever `JSON.parse` produced (a plain string on
the fallback path); `atTime` abstracts `new Date().toISOString()`. -/
structure GiftRecord where
  item : Json
  details : Option Json
  atTime : Nat

/-- One entry of the `children` record of `src/unnamed/part_000`. -/
structure ChildProfile where
  name : Option (List Char)
deriving DecidableEq

/-- The in-memory stores: `gifts` and `children`, each a JS object keyed by
child id (`none` = key absent). -/
structure St where
  gifts : List Char → Option (List GiftRecord)
  children : List Char → Option ChildProfile

/-- The empty process-start state. -/
def st0 : St := ⟨fun _ => none, fun _ => none⟩

/-- `gifts[childId] ??= []; gifts[childId].push(rec)`. -/
def pushGift (st : St) (cid : List Char) (r : GiftRecord) : St :=
  { st with gifts := fun x => if x = cid then some ((st.gifts cid).getD [] ++ [r]) else st.gifts x }

/-- `children[childId] ??= \x7b\x7d; children[childId].name = nm`. -/
def setChildName (st : St) (cid nm : List Char) : St :=
  { st with children := fun x => if x = cid then some ⟨some nm⟩ else st.children x }

/-- The HTTP response of a `/chat` call: status code and `replyText`. -/
structure ChatResp where
  status : Nat
  replyText : List Char

/-- Outcome of the outbound model call: a reply (possibly missing/empty
content) or a thrown error. -/
inductive ModelOutcome where
  | ok : Option (List Char) → ModelOutcome
  | failed : ModelOutcome

def keyGift : List Char := "gift".toList
def keyItem : List Char := "item".toList
def keyDetails : List Char := "details".toList

/-- The gift-recording step shared by all variants: given the parsed match,
push a record when `parsed.gift?.item` is truthy. -/
def recordGift (st : St) (cid : List Char) (now : Nat) (parsed : Json) : St :=
  match jsGet parsed keyGift with
  | some g =>
    match jsGet g keyItem with
    | some it => if truthy it then pushGift st cid ⟨it, jsGet g keyDetails, now⟩ else st
    | none => st
  | none => st

/-- `src/index.ts` gift extraction (lines 108–119): on a regex match, try
`JSON.parse`; on success record the gift (if any) and strip+trim the match;
a parse failure is caught before the `replace`, leaving the reply as-is. -/
def santaExtract (st : St) (cid : List Char) (now : Nat) (reply : List Char) :
    St × List Char :=
  match giftSearch reply with
  | none => (st, reply)
  | some (i, len) =>
    match jsonParse ((reply.drop i).take len) with
    | none => (st, reply)
    | some parsed =>
      (recordGift st cid now parsed, trimJs (reply.take i ++ reply.drop (i + len)))

/-- `src/src/index.ts` gift extraction (lines 67–87): recording as above, but
`reply.replace(regex, "").trim()` runs unconditionally — also when there was
no match or the parse failed. -/
def chat500Extract (st : St) (cid : List Char) (now : Nat) (reply : List Char) :
    St × List Char :=
  let st' :=
    match giftSearch reply with
    | none => st
    | some (i, len) =>
      match jsonParse ((reply.drop i).take len) with
      | none => st
      | some parsed => recordGift st cid now parsed
  let cleaned :=
    match giftSearch reply with
    | none => trimJs reply
    | some (i, len) => trimJs (reply.take i ++ reply.drop (i + len))
  (st', cleaned)

/-- `src/unnamed/part_000` gift stage (lines 132–147): like `santaExtract`
except the strip is `reply.replace(giftMatch[0], "")` — removal of the first
occurrence of the matched substring. -/
def pepperGiftStage (st : St) (cid : List Char) (now : Nat) (reply : List Char) :
    St × List Char :=
  match giftSearch reply with
  | none => (st, reply)
  | some (i, len) =>
    let matched := (reply.drop i).take len
    match jsonParse matched with
    | none => (st, reply)
    | some parsed =>
      (recordGift st cid now parsed, trimJs (removeFirstSub reply matched))

/-- `src/unnamed/part_000` name stage (lines 150–164): on a name-regex match,
if the captured name is truthy create-or-update `children[childId]`, and in
any matched case strip the match from the reply and trim. -/
def pepperNameStage (st : St) (cid : List Char) (reply : List Char) :
    St × List Char :=
  match nameSearch reply with
  | none => (st, reply)
  | some (before, nm, after) =>
    let st' := if nm.isEmpty then st else setChildName st cid nm
    (st', trimJs (before ++ after))

def santaDefault : List Char := "Ho ho ho! Merry Christmas!".toList

def santaPre : List Char := "Ho ho ho! I heard: \x22".toList

def santaPost : List Char :=
  "\x22. I'll tell the elves! Keep being kind and helpful at home.".toList

/-- `reply` as initialised from the completion: content, or the hard-coded
default when the content is missing or empty (JS `||`). -/
def replyOrDefault (dflt : List Char) : Option (List Char) → List Char
  | some s => if s.isEmpty then dflt else s
  | none => dflt

/-- The fallback-path mutation shared by `santaChat` and `pepperChat`: record
`wish[1]` as a gift when the wish regex matches the utterance. -/
def wishFallback (st : St) (cid t : List Char) (now : Nat) : St :=
  match wishSearch t with
  | some w => pushGift st cid ⟨.jstr w, none, now⟩
  | none => st

/-- POST `/chat` of `src/index.ts` (lines 91–134). -/
def santaChat (st : St) (cid t : List Char) (now : Nat) (m : ModelOutcome) :
    St × ChatResp :=
  match m with
  | .ok content =>
    let p := santaExtract st cid now (replyOrDefault santaDefault content)
    (p.1, ⟨200, p.2⟩)
  | .failed =>
    (wishFallback st cid t now, ⟨200, santaPre ++ t ++ santaPost⟩)

def err500Text : List Char :=
  "Ho ho ho! Santa is having a little trouble right now. Please try again soon.".toList

/-- POST `/chat` of `src/src/index.ts` (lines 49–95): on model failure the
handler answers HTTP 500 with a fixed apology and records nothing. -/
def chat500 (st : St) (cid t : List Char) (now : Nat) (m : ModelOutcome) :
    St × ChatResp :=
  match m with
  | .ok content =>
    let p := chat500Extract st cid now (replyOrDefault santaDefault content)
    (p.1, ⟨200, p.2⟩)
  | .failed => (st, ⟨500, err500Text⟩)

def pepperDefault : List Char :=
  "Pepper the elf is having a little trouble right now. Please try again soon.".toList

def pepperPre : List Char := "Hee hee! I heard: \x22".toList

def pepperPost : List Char :=
  "\x22. This is Pepper the elf, and I'll be sure to tell Santa. Keep being kind and helpful at home!".toList

/-- POST `/chat` of `src/unnamed/part_000` (lines 103–188). -/
def pepperChat (st : St) (cid t : List Char) (now : Nat) (m : ModelOutcome) :
    St × ChatResp :=
  match m with
  | .ok content =>
    let p := pepperGiftStage st cid now (replyOrDefault pepperDefault content)
    let q := pepperNameStage p.1 cid p.2
    (q.1, ⟨200, q.2⟩)
  | .failed =>
    (wishFallback st cid t now, ⟨200, pepperPre ++ t ++ pepperPost⟩)

/-! ### Helper lemmas -/

theorem parseStrBody_clean (X t : List Char)
    (hX : ∀ c ∈ X, c ≠ '\x22' ∧ c ≠ '\\' ∧ 32 ≤ c.toNat) :
    parseStrBody (X ++ '\x22' :: t) = some (X, t) := by
  induction X with
  | nil => unfold parseStrBody; rfl
  | cons c X ih =>
    have hc := hX c (List.mem_cons_self c X)
    have hrec := ih fun d hd => hX d (List.mem_cons_of_mem c hd)
    show parseStrBody (c :: (X ++ '\x22' :: t)) = some (c :: X, t)
    unfold parseStrBody
    rw [if_neg hc.1, if_neg hc.2.1, if_neg (by omega : ¬c.toNat < 32), hrec]
    rfl

theorem parseVal_strVal (f : Nat) (X rest : List Char)
    (hX : ∀ c ∈ X, c ≠ '\x22' ∧ c ≠ '\\' ∧ 32 ≤ c.toNat) :
    parseVal (f + 1) ('\x22' :: (X ++ '\x22' :: rest)) = some (.jstr X, rest) := by
  show (parseStrBody (X ++ '\x22' :: rest)).map (fun p => (Json.jstr p.1, p.2)) = _
  rw [parseStrBody_clean X rest hX]
  rfl

theorem objStep_closed (pv : List Char → Option (Json × List Char))
    (key s : List Char) (v : Json) (rest : List Char)
    (h : pv s = some (v, '\x7d' :: rest)) :
    objStep pv key s = some (.jobj [(key, v)], rest) := by
  unfold objStep
  rw [h]
  rfl


theorem skipWs_cons (c : Char) (r : List Char) (h : isJsonWs c = false) :
    skipWs (c :: r) = c :: r := by
  unfold skipWs
  rw [List.dropWhile_cons, h]
  simp

theorem parseVal_objHead (f : Nat) (s r rk key r1 r2 : List Char)
    (h0 : skipWs s = '\x7b' :: r)
    (h1 : skipWs r = '\x22' :: rk)
    (h2 : parseStrBody rk = some (key, r1))
    (h3 : skipWs r1 = ':' :: r2) :
    parseVal (f + 1) s = objStep (parseVal f) key r2 := by
  unfold parseVal
  rw [h0]
  simp only [h1, h2, h3]
  simp

theorem parseVal_strHead (f : Nat) (s r : List Char)
    (h0 : skipWs s = '\x22' :: r) :
    parseVal (f + 1) s = (parseStrBody r).map fun p => (.jstr p.1, p.2) := by
  unfold parseVal
  rw [h0]
  simp only []
  rw [if_neg (by decide : ¬('\x22' : Char) = '\x7b'), if_neg (by decide : ¬('\x22' : Char) = '[')]
  simp

theorem parseStrBody_item (z : List Char) :
    parseStrBody ('i' :: 't' :: 'e' :: 'm' :: '\x22' :: z) = some (['i', 't', 'e', 'm'], z) :=
  parseStrBody_clean ['i', 't', 'e', 'm'] z (by decide)

theorem parseStrBody_gift (z : List Char) :
    parseStrBody ('g' :: 'i' :: 'f' :: 't' :: '\x22' :: z) = some (['g', 'i', 'f', 't'], z) :=
  parseStrBody_clean ['g', 'i', 'f', 't'] z (by decide)

theorem parseVal_itemObj (f : Nat) (X rest : List Char)
    (hX : ∀ c ∈ X, c ≠ '\x22' ∧ c ≠ '\\' ∧ 32 ≤ c.toNat) :
    parseVal (f + 2)
        ('\x7b' :: '\x22' :: 'i' :: 't' :: 'e' :: 'm' :: '\x22' :: ':' ::
          ('\x22' :: (X ++ '\x22' :: '\x7d' :: rest)))
      = some (.jobj [(keyItem, .jstr X)], rest) := by
  show parseVal (f + 1 + 1)
      ('\x7b' :: '\x22' :: 'i' :: 't' :: 'e' :: 'm' :: '\x22' :: ':' ::
        ('\x22' :: (X ++ '\x22' :: '\x7d' :: rest))) = _
  rw [parseVal_objHead (f + 1) _ _ _ _ _ _ (skipWs_cons _ _ (by decide))
    (skipWs_cons _ _ (by decide)) (parseStrBody_item _) (skipWs_cons _ _ (by decide))]
  have hv : parseVal (f + 1) ('\x22' :: (X ++ '\x22' :: '\x7d' :: rest))
      = some (.jstr X, '\x7d' :: rest) := by
    rw [parseVal_strHead f _ _ (skipWs_cons _ _ (by decide)), parseStrBody_clean X _ hX]
    rfl
  exact objStep_closed _ _ _ _ _ hv

theorem parseVal_giftObj (f : Nat) (X rest : List Char)
    (hX : ∀ c ∈ X, c ≠ '\x22' ∧ c ≠ '\\' ∧ 32 ≤ c.toNat) :
    parseVal (f + 3)
        ('\x7b' :: '\x22' :: 'g' :: 'i' :: 'f' :: 't' :: '\x22' :: ':' ::
          ('\x7b' :: '\x22' :: 'i' :: 't' :: 'e' :: 'm' :: '\x22' :: ':' ::
            ('\x22' :: (X ++ '\x22' :: '\x7d' :: ('\x7d' :: rest)))))
      = some (.jobj [(keyGift, .jobj [(keyItem, .jstr X)])], rest) := by
  show parseVal (f + 2 + 1)
      ('\x7b' :: '\x22' :: 'g' :: 'i' :: 'f' :: 't' :: '\x22' :: ':' ::
        ('\x7b' :: '\x22' :: 'i' :: 't' :: 'e' :: 'm' :: '\x22' :: ':' ::
          ('\x22' :: (X ++ '\x22' :: '\x7d' :: ('\x7d' :: rest))))) = _
  rw [parseVal_objHead (f + 2) _ _ _ _ _ _ (skipWs_cons _ _ (by decide))
    (skipWs_cons _ _ (by decide)) (parseStrBody_gift _) (skipWs_cons _ _ (by decide))]
  exact objStep_closed _ _ _ _ _ (parseVal_itemObj f X ('\x7d' :: rest) hX)

/-- The literal `\x7b"gift":\x7b"item":"` opening the canonical gift fragment. -/
def fragOpen : List Char := "\x7b\x22gift\x22:\x7b\x22item\x22:\x22".toList

/-- The literal `"\x7d\x7d` closing the canonical gift fragment. -/
def fragClose : List Char := "\x22\x7d\x7d".toList

/-- The parse of the canonical gift fragment `\x7b"gift":\x7b"item":"X"\x7d\x7d`. -/
def giftJson (X : List Char) : Json := .jobj [(keyGift, .jobj [(keyItem, .jstr X)])]

theorem jsonParse_gift (X : List Char)
    (hX : ∀ c ∈ X, c ≠ '\x22' ∧ c ≠ '\\' ∧ 32 ≤ c.toNat) :
    jsonParse (fragOpen ++ X ++ fragClose) = some (giftJson X) := by
  have hchain : fragOpen ++ X ++ fragClose
      = '\x7b' :: '\x22' :: 'g' :: 'i' :: 'f' :: 't' :: '\x22' :: ':' ::
          ('\x7b' :: '\x22' :: 'i' :: 't' :: 'e' :: 'm' :: '\x22' :: ':' ::
            ('\x22' :: (X ++ '\x22' :: '\x7d' :: ('\x7d' :: [])))) := by
    simp [fragOpen, fragClose]
  rw [hchain]
  unfold jsonParse
  have hlen : ('\x7b' :: '\x22' :: 'g' :: 'i' :: 'f' :: 't' :: '\x22' :: ':' ::
        ('\x7b' :: '\x22' :: 'i' :: 't' :: 'e' :: 'm' :: '\x22' :: ':' ::
          ('\x22' :: (X ++ '\x22' :: '\x7d' :: ('\x7d' :: []))))).length + 1
      = X.length + 18 + 3 := by
    simp
  rw [hlen, parseVal_giftObj (X.length + 18) X [] hX]
  rfl

theorem giftMatchAt_cons_ne (c : Char) (cs : List Char) (h : c ≠ '\x7b') :
    giftMatchAt (c :: cs) = none := by
  unfold giftMatchAt
  simp [h]

theorem giftSearch_cons_none (c : Char) (cs : List Char)
    (h : giftMatchAt (c :: cs) = none) :
    giftSearch (c :: cs) = (giftSearch cs).map fun p => (p.1 + 1, p.2) := by
  rw [giftSearch.eq_def]
  simp [h]

theorem giftSearch_append (a s : List Char) (h : '\x7b' ∉ a) :
    giftSearch (a ++ s) = (giftSearch s).map fun p => (p.1 + a.length, p.2) := by
  induction a with
  | nil =>
    cases hgs : giftSearch s <;> simp [hgs]
  | cons c a ih =>
    have hc : c ≠ '\x7b' := fun e => h (e ▸ List.mem_cons_self c a)
    have ha : '\x7b' ∉ a := fun m => h (List.mem_cons_of_mem c m)
    rw [List.cons_append, giftSearch_cons_none c _ (giftMatchAt_cons_ne c _ hc), ih ha]
    cases hgs : giftSearch s with
    | none => simp [hgs]
    | some p =>
      simp [hgs]
      omega

theorem lastClose_append (u : List Char) : lastClose (u ++ ['\x7d']) = some u.length := by
  induction u with
  | nil => rfl
  | cons c u ih =>
    rw [List.cons_append]
    unfold lastClose
    rw [ih]
    simp

theorem giftMatchAt_frag (X : List Char) :
    giftMatchAt (fragOpen ++ X ++ fragClose) = some (20 + X.length) := by
  have hchain : fragOpen ++ X ++ fragClose
      = '\x7b' :: ('\x22' :: 'g' :: 'i' :: 'f' :: 't' :: '\x22' :: ':' :: '\x7b' ::
          '\x22' :: 'i' :: 't' :: 'e' :: 'm' :: '\x22' :: ':' :: '\x22' ::
          (X ++ '\x22' :: '\x7d' :: '\x7d' :: [])) := by
    simp [fragOpen, fragClose]
  have hpre : giftLit.isPrefixOf
      ('\x22' :: 'g' :: 'i' :: 'f' :: 't' :: '\x22' :: ':' :: '\x7b' ::
        '\x22' :: 'i' :: 't' :: 'e' :: 'm' :: '\x22' :: ':' :: '\x22' ::
        (X ++ '\x22' :: '\x7d' :: '\x7d' :: [])) = true := by
    simp [giftLit, List.isPrefixOf]
  have hfind : findSub giftLit
      ('\x22' :: 'g' :: 'i' :: 'f' :: 't' :: '\x22' :: ':' :: '\x7b' ::
        '\x22' :: 'i' :: 't' :: 'e' :: 'm' :: '\x22' :: ':' :: '\x22' ::
        (X ++ '\x22' :: '\x7d' :: '\x7d' :: [])) = some 0 := by
    unfold findSub
    rw [if_pos hpre]
  have hu : ('\x7b' :: ('\x22' :: 'g' :: 'i' :: 'f' :: 't' :: '\x22' :: ':' :: '\x7b' ::
          '\x22' :: 'i' :: 't' :: 'e' :: 'm' :: '\x22' :: ':' :: '\x22' ::
          (X ++ '\x22' :: '\x7d' :: '\x7d' :: [])))
      = ('\x7b' :: '\x22' :: 'g' :: 'i' :: 'f' :: 't' :: '\x22' :: ':' :: '\x7b' ::
          '\x22' :: 'i' :: 't' :: 'e' :: 'm' :: '\x22' :: ':' :: '\x22' ::
          (X ++ ['\x22', '\x7d'])) ++ ['\x7d'] := by
    simp
  have hlast : lastClose
      ('\x7b' :: ('\x22' :: 'g' :: 'i' :: 'f' :: 't' :: '\x22' :: ':' :: '\x7b' ::
          '\x22' :: 'i' :: 't' :: 'e' :: 'm' :: '\x22' :: ':' :: '\x22' ::
          (X ++ '\x22' :: '\x7d' :: '\x7d' :: []))) = some (19 + X.length) := by
    rw [hu, lastClose_append]
    simp
    omega
  rw [hchain]
  unfold giftMatchAt
  simp only [hfind, hlast, if_pos (rfl : ('\x7b' : Char) = '\x7b')]
  rw [if_pos (by omega : 0 + 7 ≤ 19 + X.length)]
  have h20 : 19 + X.length + 1 = 20 + X.length := by omega
  rw [h20]
  simp

theorem giftSearch_frag (X : List Char) :
    giftSearch (fragOpen ++ X ++ fragClose) = some (0, 20 + X.length) := by
  have h := giftMatchAt_frag X
  have hchain : fragOpen ++ X ++ fragClose
      = '\x7b' :: ('\x22' :: 'g' :: 'i' :: 'f' :: 't' :: '\x22' :: ':' :: '\x7b' ::
          '\x22' :: 'i' :: 't' :: 'e' :: 'm' :: '\x22' :: ':' :: '\x22' ::
          (X ++ '\x22' :: '\x7d' :: '\x7d' :: [])) := by
    simp [fragOpen, fragClose]
  rw [hchain] at h ⊢
  unfold giftSearch
  rw [h]

theorem giftSearch_pre_frag (pre X : List Char) (h : '\x7b' ∉ pre) :
    giftSearch (pre ++ (fragOpen ++ X ++ fragClose))
      = some (pre.length, 20 + X.length) := by
  rw [giftSearch_append pre _ h, giftSearch_frag X]
  simp [Nat.add_comm]

theorem recordGift_giftJson (st : St) (cid : List Char) (now : Nat) (X : List Char)
    (h0 : X ≠ []) :
    recordGift st cid now (giftJson X) = pushGift st cid ⟨.jstr X, none, now⟩ := by
  have hemp : X.isEmpty = false := by
    cases X with
    | nil => exact absurd rfl h0
    | cons a t => rfl
  have hne : keyItem ≠ keyDetails := by decide
  unfold giftJson recordGift jsGet lookupLast
  simp [truthy, hemp, hne]

theorem santaExtract_tail_frag (st : St) (cid : List Char) (now : Nat) (pre X : List Char)
    (hpre : '\x7b' ∉ pre) (hX0 : X ≠ [])
    (hX : ∀ c ∈ X, c ≠ '\x22' ∧ c ≠ '\\' ∧ 32 ≤ c.toNat) :
    santaExtract st cid now (pre ++ (fragOpen ++ X ++ fragClose))
      = (pushGift st cid ⟨.jstr X, none, now⟩, trimJs pre) := by
  have hs := giftSearch_pre_frag pre X hpre
  have hlenf : (fragOpen ++ X ++ fragClose).length = 20 + X.length := by
    simp [fragOpen, fragClose]
    omega
  have hdrop : (pre ++ (fragOpen ++ X ++ fragClose)).drop pre.length
      = fragOpen ++ X ++ fragClose := List.drop_left _ _
  have htake : (fragOpen ++ X ++ fragClose).take (20 + X.length)
      = fragOpen ++ X ++ fragClose := by
    rw [← hlenf]
    exact List.take_length _
  have htake2 : (pre ++ (fragOpen ++ X ++ fragClose)).take pre.length = pre :=
    List.take_left _ _
  have hdrop2 : (pre ++ (fragOpen ++ X ++ fragClose)).drop (pre.length + (20 + X.length))
      = [] := by
    apply List.drop_of_length_le
    have hof : fragOpen.length = 17 := rfl
    have hcl : fragClose.length = 3 := rfl
    simp [hof, hcl]
    omega
  unfold santaExtract
  rw [hs]
  simp only []
  rw [hdrop, htake, jsonParse_gift X hX]
  simp only []
  rw [recordGift_giftJson st cid now X hX0, htake2, hdrop2]
  simp

theorem giftSearch_none_of_no_brace (r : List Char) (h : '\x7b' ∉ r) :
    giftSearch r = none := by
  induction r with
  | nil => rfl
  | cons c cs ih =>
    have hc : c ≠ '\x7b' := fun e => h (e ▸ List.mem_cons_self c cs)
    have hcs : '\x7b' ∉ cs := fun m => h (List.mem_cons_of_mem c m)
    rw [giftSearch_cons_none c cs (giftMatchAt_cons_ne c cs hc), ih hcs]
    rfl

theorem nameMatchAt_cons_ne (c : Char) (cs : List Char) (h : c ≠ '\x7b') :
    nameMatchAt (c :: cs) = none := by
  have hlit : litP childLit (c :: cs) = none := by
    unfold litP
    rw [if_neg]
    intro hp
    have : childLit = '\x7b' :: "\x22child\x22".toList := rfl
    rw [this, List.isPrefixOf] at hp
    simp at hp
    exact h hp.1.symm
  unfold nameMatchAt
  rw [hlit]

theorem nameSearch_none_of_no_brace (r : List Char) (h : '\x7b' ∉ r) :
    nameSearch r = none := by
  induction r with
  | nil => rfl
  | cons c cs ih =>
    have hc : c ≠ '\x7b' := fun e => h (e ▸ List.mem_cons_self c cs)
    have hcs : '\x7b' ∉ cs := fun m => h (List.mem_cons_of_mem c m)
    unfold nameSearch
    rw [nameMatchAt_cons_ne c cs hc, ih hcs]
    rfl

theorem nameMatchAt_name_ne_nil (s : List Char) (b : List Char × List Char)
    (h : nameMatchAt s = some b) : b.1 ≠ [] := by
  unfold nameMatchAt at h
  repeat' split at h
  any_goals exact Option.noConfusion h
  obtain rfl := Option.some.inj h
  intro hb
  simp_all

theorem nameSearch_name_ne_nil (s : List Char) (res : List Char × List Char × List Char)
    (h : nameSearch s = some res) : res.2.1 ≠ [] := by
  induction s generalizing res with
  | nil => exact Option.noConfusion h
  | cons c cs ih =>
    unfold nameSearch at h
    split at h
    · rename_i nm0 rest0 hm
      obtain rfl := Option.some.inj h
      exact nameMatchAt_name_ne_nil _ _ hm
    · cases hcs : nameSearch cs with
      | none => rw [hcs] at h; exact Option.noConfusion h
      | some q =>
        rw [hcs] at h
        obtain rfl := Option.some.inj h
        exact ih q hcs

theorem wishCap_ne_nil (s : List Char) (n : Nat) (w : List Char)
    (h : wishCap s n = some w) : w ≠ [] := by
  unfold wishCap at h
  split at h
  · exact Option.noConfusion h
  · rename_i hemp
    obtain rfl := Option.some.inj h
    intro hw
    simp_all

theorem wishAt_ne_nil (s w : List Char) (h : wishAt s = some w) : w ≠ [] := by
  unfold wishAt at h
  repeat' split at h
  any_goals exact Option.noConfusion h
  all_goals exact wishCap_ne_nil _ _ _ h

theorem wishSearch_ne_nil (s w : List Char) (h : wishSearch s = some w) : w ≠ [] := by
  induction s with
  | nil => exact Option.noConfusion h
  | cons c cs ih =>
    unfold wishSearch at h
    split at h
    · rename_i w0 hw
      obtain rfl := Option.some.inj h
      exact wishAt_ne_nil _ _ hw
    · exact ih h

theorem pushGift_gifts_other (st : St) (cid : List Char) (r : GiftRecord)
    (c' : List Char) (h : c' ≠ cid) : (pushGift st cid r).gifts c' = st.gifts c' := by
  unfold pushGift
  simp [h]

theorem pushGift_children (st : St) (cid : List Char) (r : GiftRecord) :
    (pushGift st cid r).children = st.children := rfl

theorem setChildName_children_other (st : St) (cid nm c' : List Char) (h : c' ≠ cid) :
    (setChildName st cid nm).children c' = st.children c' := by
  unfold setChildName
  simp [h]

theorem setChildName_gifts (st : St) (cid nm : List Char) :
    (setChildName st cid nm).gifts = st.gifts := rfl

theorem recordGift_gifts_other (st : St) (cid : List Char) (now : Nat) (parsed : Json)
    (c' : List Char) (h : c' ≠ cid) :
    (recordGift st cid now parsed).gifts c' = st.gifts c' := by
  unfold recordGift
  repeat' split
  all_goals first | rfl | exact pushGift_gifts_other _ _ _ _ h

theorem recordGift_children (st : St) (cid : List Char) (now : Nat) (parsed : Json) :
    (recordGift st cid now parsed).children = st.children := by
  unfold recordGift
  repeat' split
  all_goals rfl

theorem santaExtract_gifts_other (st : St) (cid : List Char) (now : Nat) (r : List Char)
    (c' : List Char) (h : c' ≠ cid) :
    (santaExtract st cid now r).1.gifts c' = st.gifts c' := by
  unfold santaExtract
  repeat' split
  all_goals first | rfl | exact recordGift_gifts_other _ _ _ _ _ h

theorem santaExtract_children (st : St) (cid : List Char) (now : Nat) (r : List Char) :
    (santaExtract st cid now r).1.children = st.children := by
  unfold santaExtract
  repeat' split
  all_goals first | rfl | exact recordGift_children _ _ _ _

theorem chat500Extract_gifts_other (st : St) (cid : List Char) (now : Nat) (r : List Char)
    (c' : List Char) (h : c' ≠ cid) :
    (chat500Extract st cid now r).1.gifts c' = st.gifts c' := by
  unfold chat500Extract
  dsimp only
  repeat' split
  all_goals first | rfl | exact recordGift_gifts_other _ _ _ _ _ h

theorem chat500Extract_children (st : St) (cid : List Char) (now : Nat) (r : List Char) :
    (chat500Extract st cid now r).1.children = st.children := by
  unfold chat500Extract
  dsimp only
  repeat' split
  all_goals first | rfl | exact recordGift_children _ _ _ _

theorem pepperGiftStage_gifts_other (st : St) (cid : List Char) (now : Nat) (r : List Char)
    (c' : List Char) (h : c' ≠ cid) :
    (pepperGiftStage st cid now r).1.gifts c' = st.gifts c' := by
  unfold pepperGiftStage
  dsimp only
  repeat' split
  all_goals first | rfl | exact recordGift_gifts_other _ _ _ _ _ h

theorem pepperGiftStage_children (st : St) (cid : List Char) (now : Nat) (r : List Char) :
    (pepperGiftStage st cid now r).1.children = st.children := by
  unfold pepperGiftStage
  dsimp only
  repeat' split
  all_goals first | rfl | exact recordGift_children _ _ _ _

theorem pepperNameStage_gifts (st : St) (cid : List Char) (r : List Char) :
    (pepperNameStage st cid r).1.gifts = st.gifts := by
  unfold pepperNameStage
  repeat' split
  all_goals rfl

theorem pepperNameStage_children_other (st : St) (cid : List Char) (r : List Char)
    (c' : List Char) (h : c' ≠ cid) :
    (pepperNameStage st cid r).1.children c' = st.children c' := by
  unfold pepperNameStage
  repeat' split
  all_goals first | rfl | exact setChildName_children_other _ _ _ _ h

theorem wishFallback_gifts_other (st : St) (cid t : List Char) (now : Nat)
    (c' : List Char) (h : c' ≠ cid) :
    (wishFallback st cid t now).gifts c' = st.gifts c' := by
  unfold wishFallback
  repeat' split
  all_goals first | rfl | exact pushGift_gifts_other _ _ _ _ h

theorem wishFallback_children (st : St) (cid t : List Char) (now : Nat) :
    (wishFallback st cid t now).children = st.children := by
  unfold wishFallback
  repeat' split
  all_goals rfl

/-- The Fact Store invariant of interest: every stored gift record has a
JS-truthy `item`. -/
def GiftInv (st : St) : Prop :=
  ∀ c l, st.gifts c = some l → ∀ r ∈ l, truthy r.item = true

theorem giftInv_st0 : GiftInv st0 := by
  intro c l hl
  exact Option.noConfusion hl

theorem pushGift_inv (st : St) (cid : List Char) (rec : GiftRecord)
    (hst : GiftInv st) (hr : truthy rec.item = true) : GiftInv (pushGift st cid rec) := by
  intro c l hl r hrl
  by_cases hc : c = cid
  · subst hc
    unfold pushGift at hl
    simp at hl
    rw [← hl] at hrl
    rcases List.mem_append.mp hrl with hmem | hmem
    · cases hg : st.gifts c with
      | none => rw [hg] at hmem; simp at hmem
      | some l0 =>
        rw [hg] at hmem
        exact hst c l0 hg r hmem
    · rw [List.mem_singleton.mp hmem]
      exact hr
  · unfold pushGift at hl
    simp [hc] at hl
    exact hst c l hl r hrl

theorem recordGift_inv (st : St) (cid : List Char) (now : Nat) (parsed : Json)
    (hst : GiftInv st) : GiftInv (recordGift st cid now parsed) := by
  unfold recordGift
  repeat' split
  any_goals exact hst
  rename_i g hg it hit htr
  exact pushGift_inv st cid _ hst htr

theorem santaExtract_inv (st : St) (cid : List Char) (now : Nat) (r : List Char)
    (hst : GiftInv st) : GiftInv (santaExtract st cid now r).1 := by
  unfold santaExtract
  repeat' split
  any_goals exact hst
  exact recordGift_inv _ _ _ _ hst

theorem chat500Extract_inv (st : St) (cid : List Char) (now : Nat) (r : List Char)
    (hst : GiftInv st) : GiftInv (chat500Extract st cid now r).1 := by
  unfold chat500Extract
  dsimp only
  repeat' split
  any_goals exact hst
  exact recordGift_inv _ _ _ _ hst

theorem pepperGiftStage_inv (st : St) (cid : List Char) (now : Nat) (r : List Char)
    (hst : GiftInv st) : GiftInv (pepperGiftStage st cid now r).1 := by
  unfold pepperGiftStage
  dsimp only
  repeat' split
  any_goals exact hst
  exact recordGift_inv _ _ _ _ hst

theorem pepperNameStage_inv (st : St) (cid : List Char) (r : List Char)
    (hst : GiftInv st) : GiftInv (pepperNameStage st cid r).1 := by
  intro c l hl
  rw [pepperNameStage_gifts st cid r] at hl
  exact hst c l hl

theorem wishFallback_inv (st : St) (cid t : List Char) (now : Nat)
    (hst : GiftInv st) : GiftInv (wishFallback st cid t now) := by
  unfold wishFallback
  split
  · rename_i w hw
    apply pushGift_inv st cid _ hst
    have hne := wishSearch_ne_nil t w hw
    show (!w.isEmpty) = true
    cases w with
    | nil => exact absurd rfl hne
    | cons a u => rfl
  · exact hst

/-- All states reachable from the empty store by any sequence of `/chat`
turns of the three handler variants, with arbitrary inputs and model
outcomes. -/
inductive Reach : St → Prop where
  | init : Reach st0
  | stepSanta (st : St) (cid t : List Char) (now : Nat) (m : ModelOutcome) :
      Reach st → Reach (santaChat st cid t now m).1
  | stepPepper (st : St) (cid t : List Char) (now : Nat) (m : ModelOutcome) :
      Reach st → Reach (pepperChat st cid t now m).1
  | step500 (st : St) (cid t : List Char) (now : Nat) (m : ModelOutcome) :
      Reach st → Reach (chat500 st cid t now m).1

theorem giftInv_of_reach (st : St) (h : Reach st) : GiftInv st := by
  induction h with
  | init => exact giftInv_st0
  | stepSanta st cid t now m _ ih =>
    cases m with
    | ok content => exact santaExtract_inv _ _ _ _ ih
    | failed => exact wishFallback_inv _ _ _ _ ih
  | stepPepper st cid t now m _ ih =>
    cases m with
    | ok content => exact pepperNameStage_inv _ _ _ (pepperGiftStage_inv _ _ _ _ ih)
    | failed => exact wishFallback_inv _ _ _ _ ih
  | step500 st cid t now m _ ih =>
    cases m with
    | ok content => exact chat500Extract_inv _ _ _ _ ih
    | failed => exact ih

/-! ### Claim theorems -/

/-- C1 (counterexample): in the `src/src/index.ts` variant, a model-call
failure on the turn `"I want a puzzle"` is surfaced to the caller as an HTTP
500 error, and its fixed apology reply does not embed the utterance. -/
theorem c1_counterexample :
    (chat500 st0 "demo-child".toList "I want a puzzle".toList 3 .failed).2.status = 500 ∧
    findSub "I want a puzzle".toList
      (chat500 st0 "demo-child".toList "I want a puzzle".toList 3 .failed).2.replyText
      = none :=
  ⟨rfl, by decide⟩

/-- C1 (amended): every variant totally returns a reply; the santa and pepper
variants answer a model-call failure with status 200 and a deterministic
fallback embedding the utterance verbatim and never empty, while the
`src/src/index.ts` variant answers status 500 with a fixed apology. -/
theorem c1_fallback_contract (st : St) (cid t : List Char) (now : Nat) :
    (santaChat st cid t now .failed).2.status = 200 ∧
    (santaChat st cid t now .failed).2.replyText = santaPre ++ t ++ santaPost ∧
    santaPre ++ t ++ santaPost ≠ [] ∧
    (pepperChat st cid t now .failed).2.status = 200 ∧
    (pepperChat st cid t now .failed).2.replyText = pepperPre ++ t ++ pepperPost ∧
    (chat500 st cid t now .failed).2.status = 500 ∧
    (chat500 st cid t now .failed).2.replyText = err500Text := by
  refine ⟨rfl, rfl, ?_, rfl, rfl, rfl, rfl⟩
  intro hnil
  exact absurd (List.append_eq_nil.mp (List.append_eq_nil.mp hnil).1).1 (by decide)

/-- C2 (counterexample): a reply ending in exactly
`\x7b"gift":\x7b"item":"toy"\x7d\x7d` but containing an earlier brace defeats the
greedy regex: the match spans from the first brace, `JSON.parse` fails, and
extraction records nothing and strips nothing. -/
theorem c2_counterexample :
    "Ho \x7b ho \x7b\x22gift\x22:\x7b\x22item\x22:\x22toy\x22\x7d\x7d".toList
      = "Ho \x7b ho ".toList ++ (fragOpen ++ "toy".toList ++ fragClose) ∧
    santaExtract st0 "kid".toList 5
        "Ho \x7b ho \x7b\x22gift\x22:\x7b\x22item\x22:\x22toy\x22\x7d\x7d".toList
      = (st0, "Ho \x7b ho \x7b\x22gift\x22:\x7b\x22item\x22:\x22toy\x22\x7d\x7d".toList) :=
  ⟨rfl, rfl⟩

/-- C2 (amended): for every reply `pre ++ \x7b"gift":\x7b"item":"X"\x7d\x7d` whose
prefix contains no brace and whose item text `X` is non-empty and free of
quotes, backslashes and control characters, extraction records exactly one
gift with item `X` (and no details) and returns the prefix trimmed. -/
theorem c2_tail_fragment_extract (st : St) (cid : List Char) (now : Nat)
    (pre X : List Char) (hpre : '\x7b' ∉ pre) (hX0 : X ≠ [])
    (hX : ∀ c ∈ X, c ≠ '\x22' ∧ c ≠ '\\' ∧ 32 ≤ c.toNat) :
    santaExtract st cid now (pre ++ (fragOpen ++ X ++ fragClose))
      = (pushGift st cid ⟨.jstr X, none, now⟩, trimJs pre) :=
  santaExtract_tail_frag st cid now pre X hpre hX0 hX

/-- C2 (witness): the amended claim evaluated at a concrete prefix and item. -/
theorem c2_witness :
    santaExtract st0 "kid".toList 5
        ("Great! ".toList ++ (fragOpen ++ "bike".toList ++ fragClose))
      = (pushGift st0 "kid".toList ⟨.jstr "bike".toList, none, 5⟩,
          trimJs "Great! ".toList) :=
  c2_tail_fragment_extract st0 "kid".toList 5 "Great! ".toList "bike".toList
    (by decide) (by decide) (by decide)

/-- C3 (counterexample): in the `src/src/index.ts` variant the trim runs even
with no JSON-like substring, so a whitespace-padded reply is not returned
identically. -/
theorem c3_counterexample :
    '\x7b' ∉ " hi ".toList ∧
    (chat500Extract st0 "kid".toList 0 " hi ".toList).2 = "hi".toList ∧
    " hi ".toList ≠ "hi".toList :=
  ⟨by decide, rfl, by decide⟩

/-- C3 (amended): a reply with no brace (hence no JSON-like substring) passes
through the santa and pepper extraction stages with state and text unchanged
and no fragment extracted; the `src/src/index.ts` variant additionally trims
surrounding whitespace. -/
theorem c3_no_json_passthrough (st : St) (cid : List Char) (now : Nat)
    (r : List Char) (h : '\x7b' ∉ r) :
    santaExtract st cid now r = (st, r) ∧
    pepperGiftStage st cid now r = (st, r) ∧
    pepperNameStage st cid r = (st, r) ∧
    chat500Extract st cid now r = (st, trimJs r) := by
  have hg := giftSearch_none_of_no_brace r h
  have hn := nameSearch_none_of_no_brace r h
  refine ⟨?_, ?_, ?_, ?_⟩
  · unfold santaExtract
    rw [hg]
  · unfold pepperGiftStage
    rw [hg]
  · unfold pepperNameStage
    rw [hn]
  · unfold chat500Extract
    dsimp only
    rw [hg]

/-- C3 (witness): the amended claim evaluated at a concrete fragment-free
reply. -/
theorem c3_witness :
    santaExtract st0 "kid".toList 0 "hello".toList = (st0, "hello".toList) ∧
    pepperGiftStage st0 "kid".toList 0 "hello".toList = (st0, "hello".toList) ∧
    pepperNameStage st0 "kid".toList "hello".toList = (st0, "hello".toList) ∧
    chat500Extract st0 "kid".toList 0 "hello".toList
      = (st0, trimJs "hello".toList) :=
  c3_no_json_passthrough st0 "kid".toList 0 "hello".toList (by decide)

/-- C4 (counterexample): in the `src/src/index.ts` variant a malformed
gift-like substring is removed from the cleaned text even though no fragment
is recorded, so the text is not identical to the raw reply. -/
theorem c4_counterexample :
    (chat500Extract st0 "kid".toList 5
        "Ho! \x7b\x22gift\x22: not json\x7d".toList).1.gifts "kid".toList = none ∧
    (chat500Extract st0 "kid".toList 5
        "Ho! \x7b\x22gift\x22: not json\x7d".toList).2 = "Ho!".toList ∧
    "Ho!".toList ≠ "Ho! \x7b\x22gift\x22: not json\x7d".toList :=
  ⟨rfl, rfl, by decide⟩

/-- C4 (amended): in the santa and pepper variants, when a gift-like substring
is matched but fails to parse as JSON, the store is unchanged and the cleaned
text is identical to the raw reply, malformed substring included. -/
theorem c4_malformed_swallowed (st : St) (cid : List Char) (now : Nat)
    (r : List Char) (i len : Nat) (h1 : giftSearch r = some (i, len))
    (h2 : jsonParse ((r.drop i).take len) = none) :
    santaExtract st cid now r = (st, r) ∧
    pepperGiftStage st cid now r = (st, r) := by
  constructor
  · unfold santaExtract
    simp only [h1]
    rw [h2]
  · unfold pepperGiftStage
    simp only [h1]
    rw [h2]

/-- C4 (witness): the amended claim evaluated at a concrete malformed
fragment. -/
theorem c4_witness :
    santaExtract st0 "kid".toList 5 "Ho! \x7b\x22gift\x22: not json\x7d".toList
      = (st0, "Ho! \x7b\x22gift\x22: not json\x7d".toList) ∧
    pepperGiftStage st0 "kid".toList 5 "Ho! \x7b\x22gift\x22: not json\x7d".toList
      = (st0, "Ho! \x7b\x22gift\x22: not json\x7d".toList) :=
  c4_malformed_swallowed st0 "kid".toList 5 "Ho! \x7b\x22gift\x22: not json\x7d".toList
    4 18 (by decide) (by rfl)

/-- C5 (counterexample): on a model-call failure with utterance
`"I want a puzzle"` the fallback heuristic records the capture of `(.+)` after
the verb, which is `"a puzzle"`, not `"puzzle"`. -/
theorem c5_counterexample :
    (santaChat st0 "demo-child".toList "I want a puzzle".toList 7 .failed).1.gifts
        "demo-child".toList
      = some [⟨.jstr "a puzzle".toList, none, 7⟩] ∧
    "a puzzle".toList ≠ "puzzle".toList :=
  ⟨rfl, by decide⟩

/-- C5 (amended): on a model-call failure with utterance `"I want a puzzle"`,
the fallback path appends exactly one gift record with item `"a puzzle"` (the
capture includes the article) and returns the non-empty deterministic fallback
reply embedding the original utterance verbatim; the pepper variant records
the same item. -/
theorem c5_fallback_puzzle :
    (santaChat st0 "demo-child".toList "I want a puzzle".toList 7 .failed).1.gifts
        "demo-child".toList
      = some [⟨.jstr "a puzzle".toList, none, 7⟩] ∧
    (santaChat st0 "demo-child".toList "I want a puzzle".toList 7 .failed).2.replyText
      = santaPre ++ "I want a puzzle".toList ++ santaPost ∧
    (santaChat st0 "demo-child".toList "I want a puzzle".toList 7 .failed).2.replyText
      ≠ [] ∧
    (pepperChat st0 "demo-child".toList "I want a puzzle".toList 7 .failed).1.gifts
        "demo-child".toList
      = some [⟨.jstr "a puzzle".toList, none, 7⟩] :=
  ⟨rfl, rfl, by decide, rfl⟩

/-- C6 (counterexample): a successful model reply consisting of exactly a gift
fragment is stripped to the empty string and returned as-is — no default
greeting is substituted after extraction. -/
theorem c6_counterexample :
    (santaChat st0 "kid".toList "x".toList 7
        (.ok (some "\x7b\x22gift\x22:\x7b\x22item\x22:\x22bike\x22\x7d\x7d".toList))).2.replyText
      = [] := rfl

/-- C6 (amended): the hard-coded default greeting is substituted only when the
raw model content is missing or empty, before fragment stripping; in those
cases the reply is the non-empty default, but a reply that becomes empty after
stripping is returned empty. -/
theorem c6_default_before_extraction (st : St) (cid t : List Char) (now : Nat) :
    (santaChat st cid t now (.ok none)).2.replyText = santaDefault ∧
    (santaChat st cid t now (.ok (some []))).2.replyText = santaDefault ∧
    santaDefault ≠ [] := by
  have hg : giftSearch santaDefault = none := by decide
  refine ⟨?_, ?_, by decide⟩
  · show (santaExtract st cid now santaDefault).2 = santaDefault
    unfold santaExtract
    rw [hg]
  · show (santaExtract st cid now santaDefault).2 = santaDefault
    unfold santaExtract
    rw [hg]

/-- C7 (counterexample): a name fragment whose captured name is the single
space — matched by `[^"]+` and truthy in JS — overwrites a previously stored
name instead of being a no-op. -/
theorem c7_counterexample :
    (pepperChat (setChildName st0 "kid".toList "Emma".toList) "kid".toList
        "x".toList 7
        (.ok (some "Nice! \x7b\x22child\x22:\x7b\x22name\x22:\x22 \x22\x7d\x7d".toList))).1.children
        "kid".toList
      = some ⟨some [' ']⟩ ∧
    ChildProfile.mk (some [' ']) ≠ ChildProfile.mk (some "Emma".toList) ∧
    isJsWs ' ' = true :=
  ⟨rfl, by decide, rfl⟩

/-- C7 (amended): whenever the name regex matches the (gift-stripped) reply of
a turn, the stored name for that child becomes exactly the captured name —
last writer wins, so a second turn retains only its own capture — and that
capture is never the empty string (the regex requires at least one character),
though it may be whitespace-only. -/
theorem c7_name_overwrite (st : St) (cid t : List Char) (now : Nat)
    (content : Option (List Char)) (b nm a : List Char)
    (h : nameSearch (pepperGiftStage st cid now (replyOrDefault pepperDefault content)).2
        = some (b, nm, a)) :
    (pepperChat st cid t now (.ok content)).1.children cid = some ⟨some nm⟩ ∧
    nm ≠ [] := by
  have hne : nm ≠ [] := nameSearch_name_ne_nil _ (b, nm, a) h
  have hfalse : nm.isEmpty = false := by
    cases nm with
    | nil => exact absurd rfl hne
    | cons x xs => rfl
  refine ⟨?_, hne⟩
  show (pepperNameStage (pepperGiftStage st cid now (replyOrDefault pepperDefault content)).1
      cid (pepperGiftStage st cid now (replyOrDefault pepperDefault content)).2).1.children cid
    = some ⟨some nm⟩
  unfold pepperNameStage
  rw [h]
  simp only [hfalse]
  unfold setChildName
  simp

/-- C7 (witness): after two consecutive name-carrying turns the stored name is
the second capture. -/
theorem c7_witness :
    (pepperChat
        (pepperChat st0 "kid".toList "u".toList 7
          (.ok (some "Hi! \x7b\x22child\x22:\x7b\x22name\x22:\x22Emma\x22\x7d\x7d".toList))).1
        "kid".toList "u".toList 8
        (.ok (some "Hi! \x7b\x22child\x22:\x7b\x22name\x22:\x22Liam\x22\x7d\x7d".toList))).1.children
        "kid".toList
      = some ⟨some "Liam".toList⟩ ∧
    "Liam".toList ≠ [] :=
  c7_name_overwrite
    (pepperChat st0 "kid".toList "u".toList 7
      (.ok (some "Hi! \x7b\x22child\x22:\x7b\x22name\x22:\x22Emma\x22\x7d\x7d".toList))).1
    "kid".toList "u".toList 8
    (some "Hi! \x7b\x22child\x22:\x7b\x22name\x22:\x22Liam\x22\x7d\x7d".toList)
    "Hi! ".toList "Liam".toList [] (by rfl)

/-- C8 (counterexample): a first-ever turn for an unknown child whose reply
carries no name fragment leaves the children map without any entry for that
child — no empty profile is created on first reference. -/
theorem c8_counterexample :
    (pepperChat st0 "kid".toList "Hello".toList 7
        (.ok (some "Hi there!".toList))).1.children "kid".toList = none := rfl

/-- C8 (amended): the handler is total (never throws) and creates a profile
only when a name fragment is extracted: a turn for an unknown child whose
reply yields no name match — and likewise the fallback path — leaves that
child without any profile entry. -/
theorem c8_profile_only_on_name (st : St) (cid t : List Char) (now : Nat)
    (content : Option (List Char)) (h0 : st.children cid = none)
    (hn : nameSearch (pepperGiftStage st cid now (replyOrDefault pepperDefault content)).2
        = none) :
    (pepperChat st cid t now (.ok content)).1.children cid = none ∧
    (pepperChat st cid t now .failed).1.children cid = none := by
  constructor
  · show (pepperNameStage (pepperGiftStage st cid now (replyOrDefault pepperDefault content)).1
        cid (pepperGiftStage st cid now (replyOrDefault pepperDefault content)).2).1.children cid
      = none
    unfold pepperNameStage
    rw [hn]
    exact (congrFun (pepperGiftStage_children st cid now _) cid).trans h0
  · exact (congrFun (wishFallback_children st cid t now) cid).trans h0

/-- C8 (witness): the amended claim at a concrete fragment-free first turn. -/
theorem c8_witness :
    (pepperChat st0 "kid".toList "Hello".toList 7
        (.ok (some "Hi there!".toList))).1.children "kid".toList = none ∧
    (pepperChat st0 "kid".toList "Hello".toList 7 .failed).1.children "kid".toList
      = none :=
  c8_profile_only_on_name st0 "kid".toList "Hello".toList 7
    (some "Hi there!".toList) rfl (by rfl)

/-- C9 (counterexample): the extraction guard only checks JS truthiness of
`parsed.gift.item`, so a reply whose item is the number `123` stores a gift
record whose item is not a string at all. -/
theorem c9_counterexample :
    (santaChat st0 "kid".toList "x".toList 7
        (.ok (some "\x7b\x22gift\x22:\x7b\x22item\x22:123\x7d\x7d".toList))).1.gifts
        "kid".toList
      = some [⟨.jnum 123 0, none, 7⟩] ∧
    jsonIsStr (Json.jnum 123 0) = false :=
  ⟨rfl, rfl⟩

/-- C9 (amended): invariant over all states reachable by any sequence of chat
turns of the three variants: every stored gift record has a JS-truthy item —
never null, false, zero or the empty string; fallback-path items are moreover
non-empty strings, but extraction-path items need not be strings. -/
theorem c9_truthy_invariant (st : St) (h : Reach st) (c : List Char)
    (l : List GiftRecord) (hl : st.gifts c = some l) (r : GiftRecord)
    (hr : r ∈ l) : truthy r.item = true :=
  giftInv_of_reach st h c l hl r hr

/-- C9 (witness): the invariant evaluated on the record stored by a concrete
fallback turn. -/
theorem c9_witness :
    truthy (GiftRecord.mk (.jstr "a puzzle".toList) none 7).item = true :=
  c9_truthy_invariant
    (santaChat st0 "demo-child".toList "I want a puzzle".toList 7 .failed).1
    (Reach.stepSanta st0 "demo-child".toList "I want a puzzle".toList 7 .failed
      Reach.init)
    "demo-child".toList [⟨.jstr "a puzzle".toList, none, 7⟩] rfl
    ⟨.jstr "a puzzle".toList, none, 7⟩ (List.mem_singleton.mpr rfl)

/-- C10 (confirmed): a chat turn keyed by `cid` leaves the gifts and profile
of every other child identity unchanged, on the success path and the fallback
path, in all three handler variants. -/
theorem c10_frame (st : St) (cid t : List Char) (now : Nat) (m : ModelOutcome)
    (c' : List Char) (h : c' ≠ cid) :
    ((santaChat st cid t now m).1.gifts c' = st.gifts c' ∧
      (santaChat st cid t now m).1.children c' = st.children c') ∧
    ((pepperChat st cid t now m).1.gifts c' = st.gifts c' ∧
      (pepperChat st cid t now m).1.children c' = st.children c') ∧
    ((chat500 st cid t now m).1.gifts c' = st.gifts c' ∧
      (chat500 st cid t now m).1.children c' = st.children c') := by
  refine ⟨⟨?_, ?_⟩, ⟨?_, ?_⟩, ?_, ?_⟩
  · cases m with
    | ok content => exact santaExtract_gifts_other st cid now _ c' h
    | failed => exact wishFallback_gifts_other st cid t now c' h
  · cases m with
    | ok content => exact congrFun (santaExtract_children st cid now _) c'
    | failed => exact congrFun (wishFallback_children st cid t now) c'
  · cases m with
    | ok content =>
      exact (congrFun (pepperNameStage_gifts _ cid _) c').trans
        (pepperGiftStage_gifts_other st cid now _ c' h)
    | failed => exact wishFallback_gifts_other st cid t now c' h
  · cases m with
    | ok content =>
      exact (pepperNameStage_children_other _ cid _ c' h).trans
        (congrFun (pepperGiftStage_children st cid now _) c')
    | failed => exact congrFun (wishFallback_children st cid t now) c'
  · cases m with
    | ok content => exact chat500Extract_gifts_other st cid now _ c' h
    | failed => rfl
  · cases m with
    | ok content => exact congrFun (chat500Extract_children st cid now _) c'
    | failed => rfl

/-- C10 (witness): the frame property evaluated at concrete distinct child
identities. -/
theorem c10_witness :
    ((santaChat st0 "a".toList "hi".toList 0 .failed).1.gifts "b".toList
        = st0.gifts "b".toList ∧
      (santaChat st0 "a".toList "hi".toList 0 .failed).1.children "b".toList
        = st0.children "b".toList) ∧
    ((pepperChat st0 "a".toList "hi".toList 0 .failed).1.gifts "b".toList
        = st0.gifts "b".toList ∧
      (pepperChat st0 "a".toList "hi".toList 0 .failed).1.children "b".toList
        = st0.children "b".toList) ∧
    ((chat500 st0 "a".toList "hi".toList 0 .failed).1.gifts "b".toList
        = st0.gifts "b".toList ∧
      (chat500 st0 "a".toList "hi".toList 0 .failed).1.children "b".toList
        = st0.children "b".toList) :=
  c10_frame st0 "a".toList "hi".toList 0 .failed "b".toList (by decide)
